import Mathlib

/-!
Shallow embedding of the `cargo-crev` command-line front end
(`src/cargo-crev/src/main.rs`) together with the small pieces of the
`crev` libraries it dispatches into, and proofs of the behavioural
claims about it.

Conventions:
* Rust `String` is embedded as Lean `String`; Rust's `str::starts_with`
  is embedded as list-prefix testing over the underlying character data
  (`rs_starts_with`), which agrees with it character for character.
* Fallible Rust code (`Result`, `bail!`, the `?` operator) is embedded
  as `Except String`.
* Library code that is not part of the provided sources (the `crev-lib`,
  `crev-data` and `crev-wot` crates and the binary's helper modules) is
  modelled from the specification; every such definition carries a doc
  comment starting with `Modelled from the spec:`.
-/

namespace Crev

/-- Embeds Rust's `str::starts_with`: `pre` is a prefix of `s`,
decided over the character data of the strings. -/
def rs_starts_with (s pre : String) : Bool :=
  pre.data.isPrefixOf s.data

theorem rs_starts_with_append (s t : String) :
    rs_starts_with (s ++ t) s = true := by
  simp [rs_starts_with, List.isPrefixOf_iff_prefix, String.data_append]

/-- Modelled from the spec: an identity is a public key, equal exactly
when the public-key bytes are equal (`crev-data`, not in the sources). -/
structure Id where
  bytes : List Nat
deriving DecidableEq, Repr

/-- Modelled from the spec: `PROJECT_SOURCE_CRATES_IO`, the distinguished
short literal that the default public registry source is canonicalized to
(defined in the binary's `shared` module, which is not in the sources). -/
def PROJECT_SOURCE_CRATES_IO : String := "https://crates.io"

/-- Embeds `cargo_registry_to_crev_source_id` (main.rs lines 138-145),
as a function of the URL string of the cargo `SourceId`. -/
def cargo_registry_to_crev_source_id (s : String) : String :=
  if s = "registry+https://github.com/rust-lang/crates.io-index" then
    PROJECT_SOURCE_CRATES_IO
  else
    s

/-- Modelled from the spec: a URL record as stored in proofs
(`crev-data`, not in the sources); only the `url` field is used here. -/
structure Url where
  url : String
deriving DecidableEq

/-- Modelled from the spec: `UrlOfId`, the best URL claim the proof
database can make about an identity (`crev-wot`, not in the sources),
with exactly the four variants the spec lists. -/
inductive UrlOfId where
  | None : UrlOfId
  | FromSelfVerified : Url → UrlOfId
  | FromSelf : Url → UrlOfId
  | FromOthers : Url → UrlOfId
deriving DecidableEq

/-- Embeds the `match db.lookup_url(id)` arm of `print_ids`
(main.rs lines 162-168): the status marker and the URL printed
next to an id. -/
def print_ids_status_and_url : UrlOfId → String × String
  | UrlOfId.None => ("", "")
  | UrlOfId.FromSelfVerified u => ("==", u.url)
  | UrlOfId.FromSelf u => ("~=", u.url)
  | UrlOfId.FromOthers u => ("??", u.url)

/-- Embeds the URL-selection step of the `opts::Id::New` branch of
`run_command` (main.rs lines 184-190): exactly one of a URL or a
GitHub username must be supplied. -/
def id_new_url : Option String → Option String → Except String String
  | some u, none => Except.ok u
  | none, some username =>
      Except.ok ("https://github.com/" ++ username ++ "/crev-proofs")
  | _, _ =>
      Except.error "Must provide either a github username or url, but not both."

/-- Embeds the `opts::Id::New` branch of `run_command`
(main.rs lines 183-220) up to key generation: the result is the URL
passed to `generate_id` when a key is generated, and the error message
when the command bails out before generating any key. -/
def id_new (url github_username : Option String) : Except String String :=
  match id_new_url url github_username with
  | Except.error e => Except.error e
  | Except.ok u =>
      if rs_starts_with u "https://" then Except.ok u
      else Except.error "URL must start with 'https://'"

/-- Modelled from the spec: the per-package verdicts of the dependency
verifier (`crev-lib` / the binary's `deps` module, not in the sources). -/
inductive VerificationStatus where
  | Local : VerificationStatus
  | Verified : VerificationStatus
  | Insufficient : VerificationStatus
  | Flagged : VerificationStatus
  | Unknown : VerificationStatus
  | UnknownSource : VerificationStatus
deriving DecidableEq, Repr

/-- The command result type returned by `run_command` (declared in the
binary's `shared` module; the two variants used by main.rs). -/
inductive CommandExitStatus where
  | Success : CommandExitStatus
  | VerificationFailed : CommandExitStatus
deriving DecidableEq, Repr

/-- A verdict counts as passing verification exactly when it is
`Local` or `Verified`. -/
def verdict_passes : VerificationStatus → Bool
  | VerificationStatus.Local => true
  | VerificationStatus.Verified => true
  | _ => false

/-- Modelled from the spec: `deps::verify_deps` (the binary's `deps`
module, not in the sources) returns `Success` when every package verdict
is in {`Local`, `Verified`} and `VerificationFailed` otherwise. -/
def verify_deps (verdicts : List VerificationStatus) : CommandExitStatus :=
  if verdicts.all verdict_passes then CommandExitStatus.Success
  else CommandExitStatus.VerificationFailed

/-- Embeds the exit-code dispatch of `main` (main.rs lines 629-636):
normal return on success, `exit(-1)` on failed verification,
`exit(-2)` on any error. -/
def main_exit_code : Except String CommandExitStatus → Int
  | Except.ok CommandExitStatus.Success => 0
  | Except.ok CommandExitStatus.VerificationFailed => -1
  | Except.error _ => -2

/-- A run of the dependency-verification command: the verdict list (or
the error) produced by `verify_deps`, mapped to a process exit code by
`main`. -/
def verify_run_exit_code (outcome : Except String (List VerificationStatus)) : Int :=
  main_exit_code (outcome.map verify_deps)

/-- Modelled from the spec: severity / priority levels
(`crev-data::Level`, not in the sources). -/
inductive Level where
  | None : Level
  | Low : Level
  | Medium : Level
  | High : Level
deriving DecidableEq, Repr

/-- Modelled from the spec: advisory version ranges
(`crev-data`, not in the sources). -/
inductive VersionRange where
  | Major : VersionRange
  | Minor : VersionRange
  | All : VersionRange
deriving DecidableEq, Repr

/-- The fields of the `crate review` / `crate unreview` arguments that
feed the activity-check decision (declared in the binary's `opts`
module; the field set is read off main.rs lines 102-132 and 428-461). -/
structure ReviewArgs where
  advisory : Bool
  affected : Option VersionRange
  issue : Bool
  severity : Option Level
  skip_activity_check : Bool

/-- Embeds the `is_advisory` computation, identical in `crate_review`
(main.rs lines 104-105) and the `Unreview` branch (main.rs lines
430-432). -/
def review_is_advisory (a : ReviewArgs) : Bool :=
  a.advisory || a.affected.isSome || (!a.issue && a.severity.isSome)

/-- Modelled from the spec: the activity check inside
`create_review_proof` (the binary's `review` module, not in the
sources): it refuses to produce a review proof when the crate has no
recorded recent review activity, unless the skip flag passed by the
caller is set. -/
def create_review_proof_activity_gate (skip has_recent_activity : Bool) :
    Except String Unit :=
  if !skip && !has_recent_activity then
    Except.error "no recent review activity for this crate"
  else
    Except.ok ()

/-- Embeds the skip flag `crate_review` passes to `create_review_proof`
(main.rs line 130). -/
def crate_review_skip_flag (a : ReviewArgs) : Bool :=
  a.skip_activity_check || review_is_advisory a || a.issue

/-- Embeds the skip flag the `Unreview` branch of `run_command` passes
to `create_review_proof` (main.rs line 457). -/
def crate_unreview_skip_flag (a : ReviewArgs) : Bool :=
  a.skip_activity_check || review_is_advisory a || a.issue

/-- The activity-check outcome of the review command. -/
def crate_review_activity_check (a : ReviewArgs) (has_recent_activity : Bool) :
    Except String Unit :=
  create_review_proof_activity_gate (crate_review_skip_flag a) has_recent_activity

/-- The activity-check outcome of the unreview command. -/
def crate_unreview_activity_check (a : ReviewArgs) (has_recent_activity : Bool) :
    Except String Unit :=
  create_review_proof_activity_gate (crate_unreview_skip_flag a) has_recent_activity

/-- Embeds `ids_from_string` (main.rs lines 603-611), parameterized by
the id parser `Id::crevid_from_str` (`crev-data`, not in the sources):
parse every string, short-circuiting at the first failure with an error
message naming the offending string. -/
def ids_from_string (crevid_from_str : String → Except String Id) :
    List String → Except String (List Id)
  | [] => Except.ok []
  | s :: rest =>
      match crevid_from_str s with
      | Except.ok i =>
          match ids_from_string crevid_from_str rest with
          | Except.ok l => Except.ok (i :: l)
          | Except.error e => Except.error e
      | Except.error e =>
          Except.error ("'" ++ s ++ "' is not a valid crev Id: " ++ e)

/-- Modelled from the spec: the common interface of parsed proof
content (`crev-data` / the binary's `dyn_proof` module, not in the
sources): an author identity, a creation date and the remaining
canonical payload, with `set_author` and `set_date` updates. -/
structure DynContent where
  author : Id
  date : Nat
  payload : String
deriving DecidableEq, Repr

/-- Embeds `set_date` of the dyn-proof content interface. -/
def DynContent.set_date (c : DynContent) (d : Nat) : DynContent :=
  { c with date := d }

/-- Embeds `set_author` of the dyn-proof content interface. -/
def DynContent.set_author (c : DynContent) (a : Id) : DynContent :=
  { c with author := a }

/-- Modelled from the spec: a signed proof envelope (`crev-data`, not in
the sources): the canonical body, and a signature modelled as the
signing identity together with the exact content the signature covers;
`known_kind` records whether the content parses as a recognized proof
kind. -/
structure Proof where
  body : DynContent
  sig_by : Id
  sig_over : DynContent
  known_kind : Bool
deriving DecidableEq, Repr

/-- Modelled from the spec: `sign_by` (`crev-data`, not in the sources):
signing produces a proof whose signature is by the given identity over
exactly the canonical content being signed. -/
def DynContent.sign_by (c : DynContent) (signer : Id) : Proof :=
  ⟨c, signer, c, true⟩

/-- Modelled from the spec: `dyn_proof::parse_dyn_content` (the binary's
`dyn_proof` module, not in the sources): parsing the content of a proof
fails on unparseable content or an unknown kind tag. -/
def parse_dyn_content (p : Proof) : Except String DynContent :=
  if p.known_kind then Except.ok p.body else Except.error "unknown proof kind"

/-- Embeds the `opts::Repo::Import` loop of `run_command` (main.rs lines
548-572): for each parsed proof, on successful content parse the date is
optionally reset, the author is set to the importing identity, the
content is freshly signed by the importing identity and the result is
stored; on a parse failure a warning is printed and the proof is
skipped.  The returned list is the list of stored proofs in order. -/
def repo_import (id : Id) (reset_date : Bool) (now : Nat) :
    List Proof → List Proof
  | [] => []
  | proof :: rest =>
      match parse_dyn_content proof with
      | Except.ok content =>
          let content1 := if reset_date then content.set_date now else content
          let content2 := content1.set_author id
          content2.sign_by id :: repo_import id reset_date now rest
      | Except.error _ => repo_import id reset_date now rest

/-- Modelled from the spec: trust levels, ordered
`distrust < none < low < medium < high` (`crev-data`, not in the
sources). -/
inductive TrustLevel where
  | Distrust : TrustLevel
  | None : TrustLevel
  | Low : TrustLevel
  | Medium : TrustLevel
  | High : TrustLevel
deriving DecidableEq, Repr

/-- The rank of a trust level in the spec's order. -/
def TrustLevel.rank : TrustLevel → Nat
  | TrustLevel.Distrust => 0
  | TrustLevel.None => 1
  | TrustLevel.Low => 2
  | TrustLevel.Medium => 3
  | TrustLevel.High => 4

instance : LE TrustLevel := ⟨fun a b => a.rank ≤ b.rank⟩

instance (a b : TrustLevel) : Decidable (a ≤ b) :=
  inferInstanceAs (Decidable (a.rank ≤ b.rank))

/-- Modelled from the spec: the `TrustSet` computed by
`calculate_trust_set` (`crev-wot`, not in the sources), exposing
`trusted_ids()` and `get_effective_trust_level(id)`. -/
structure TrustSet where
  trusted_ids : List Id
  get_effective_trust_level : Id → TrustLevel

/-- Embeds the `opts::IdQuery::Trusted` branch of `run_command`
(main.rs lines 309-327): the ids passed to `print_ids` are
`trust_set.trusted_ids()` filtered by the caller against the supplied
threshold level. -/
def id_query_trusted (trust_set : TrustSet) (trust_level : TrustLevel) :
    List Id :=
  trust_set.trusted_ids.filter
    (fun i => decide (trust_level ≤ trust_set.get_effective_trust_level i))

/-- Embeds the argument partition of the `opts::Command::Trust` branch
of `run_command` (main.rs lines 357-360): URL-looking arguments are
separated from id strings. -/
def trust_args_partition (args : List String) : List String × List String :=
  args.partition (fun arg => rs_starts_with arg "https://")

/-- Embeds the URL-resolution loop of the `opts::Command::Trust` branch
(main.rs lines 366-389): each URL resolves to every author identity
whose self-claimed URL equals it (via the reverse lookup built from
`db.all_author_ids()` and `db.lookup_url(id).from_self()`); a URL whose
entry was already taken or never existed only produces a warning.  The
accumulator `used` holds the URLs whose lookup entry has been removed;
the result is the resolved ids and the warned URLs. -/
def trust_urls_to_ids (from_self : Id → Option String)
    (author_ids : List Id) :
    List String → List String → List Id × List String
  | [], _ => ([], [])
  | url :: rest, used =>
      let matching := author_ids.filter (fun i => decide (from_self i = some url))
      if url ∉ used ∧ matching ≠ [] then
        (matching ++ (trust_urls_to_ids from_self author_ids rest (url :: used)).1,
         (trust_urls_to_ids from_self author_ids rest (url :: used)).2)
      else
        ((trust_urls_to_ids from_self author_ids rest used).1,
         url :: (trust_urls_to_ids from_self author_ids rest used).2)

/-- Embeds the target computation of the `opts::Command::Trust` branch
(main.rs lines 356-390): the explicitly given ids are parsed with
`ids_from_string`, the URL arguments are resolved, and the trust proof
is created for the concatenation; URL resolution failures never fail the
command.  The result carries the proof's target ids and the warned
URLs. -/
def trust_command_targets (parse : String → Except String Id)
    (from_self : Id → Option String) (author_ids : List Id)
    (args : List String) : Except String (List Id × List String) :=
  match ids_from_string parse (trust_args_partition args).2 with
  | Except.error e => Except.error e
  | Except.ok ids =>
      Except.ok
        (ids ++ (trust_urls_to_ids from_self author_ids (trust_args_partition args).1 []).1,
         (trust_urls_to_ids from_self author_ids (trust_args_partition args).1 []).2)

/-- C2: `cargo_registry_to_crev_source_id` returns the distinguished
short literal exactly when the source URL string is the default public
registry's URL, and returns every other URL string unchanged.  The
hypothesis records that a cargo source URL is never itself the short
literal (cargo renders source URLs with a `kind+` scheme prefix). -/
theorem cargo_registry_canonicalization (s : String)
    (h : s ≠ PROJECT_SOURCE_CRATES_IO) :
    (cargo_registry_to_crev_source_id s = PROJECT_SOURCE_CRATES_IO ↔
      s = "registry+https://github.com/rust-lang/crates.io-index") ∧
    (s ≠ "registry+https://github.com/rust-lang/crates.io-index" →
      cargo_registry_to_crev_source_id s = s) := by
  unfold cargo_registry_to_crev_source_id
  refine ⟨⟨fun hr => ?_, fun he => by rw [if_pos he]⟩, fun hne => by rw [if_neg hne]⟩
  by_contra hne
  rw [if_neg hne] at hr
  exact h hr

theorem cargo_registry_canonicalization_witness :
    "git+https://example.com/repo" ≠ PROJECT_SOURCE_CRATES_IO ∧
    ((cargo_registry_to_crev_source_id "git+https://example.com/repo" =
        PROJECT_SOURCE_CRATES_IO ↔
      "git+https://example.com/repo" =
        "registry+https://github.com/rust-lang/crates.io-index") ∧
    ("git+https://example.com/repo" ≠
        "registry+https://github.com/rust-lang/crates.io-index" →
      cargo_registry_to_crev_source_id "git+https://example.com/repo" =
        "git+https://example.com/repo")) :=
  ⟨by decide, cargo_registry_canonicalization _ (by decide)⟩

/-- C6: `lookup_url` results are exactly the four variants `None`,
`FromSelfVerified`, `FromSelf`, `FromOthers`, and the id listing renders
them as the status markers `""`, `"=="`, `"~="`, `"??"` next to the
claimed URL. -/
theorem lookup_url_status_markers (r : UrlOfId) :
    (r = UrlOfId.None ∨
      (∃ u, r = UrlOfId.FromSelfVerified u) ∨
      (∃ u, r = UrlOfId.FromSelf u) ∨
      (∃ u, r = UrlOfId.FromOthers u)) ∧
    print_ids_status_and_url UrlOfId.None = ("", "") ∧
    (∀ u, print_ids_status_and_url (UrlOfId.FromSelfVerified u) = ("==", u.url)) ∧
    (∀ u, print_ids_status_and_url (UrlOfId.FromSelf u) = ("~=", u.url)) ∧
    (∀ u, print_ids_status_and_url (UrlOfId.FromOthers u) = ("??", u.url)) := by
  refine ⟨?_, rfl, fun _ => rfl, fun _ => rfl, fun _ => rfl⟩
  cases r with
  | None => exact Or.inl rfl
  | FromSelfVerified u => exact Or.inr (Or.inl ⟨u, rfl⟩)
  | FromSelf u => exact Or.inr (Or.inr (Or.inl ⟨u, rfl⟩))
  | FromOthers u => exact Or.inr (Or.inr (Or.inr ⟨u, rfl⟩))

/-- C8: the id-creation command generates a key only when exactly one of
a URL or a GitHub username is supplied and the resulting repository URL
starts with `https://`; with both or neither supplied, or a URL lacking
the prefix, it fails before any key is generated. -/
theorem id_new_exactly_one_and_https (u name : String) :
    id_new (some u) none =
      (if rs_starts_with u "https://" then Except.ok u
       else Except.error "URL must start with 'https://'") ∧
    id_new none (some name) =
      Except.ok ("https://github.com/" ++ name ++ "/crev-proofs") ∧
    id_new (some u) (some name) =
      Except.error "Must provide either a github username or url, but not both." ∧
    id_new none none =
      Except.error "Must provide either a github username or url, but not both." := by
  refine ⟨rfl, ?_, rfl, rfl⟩
  show (if rs_starts_with ("https://github.com/" ++ name ++ "/crev-proofs") "https://"
          then Except.ok ("https://github.com/" ++ name ++ "/crev-proofs")
          else Except.error "URL must start with 'https://'") = _
  rw [show ("https://github.com/" ++ name ++ "/crev-proofs" : String) =
        "https://" ++ ("github.com/" ++ name ++ "/crev-proofs") by
      simp [← String.append_assoc]]
  rw [rs_starts_with_append]
  simp

/-- C1: the dependency-verification run exits with code 0 exactly when
every package verdict is `Local` or `Verified`; a failed verification
exits with the non-zero code -1, and any error exits with the distinct
non-zero code -2. -/
theorem verify_exit_codes (vs : List VerificationStatus) (e : String) :
    (verify_run_exit_code (Except.ok vs) = 0 ↔ vs.all verdict_passes = true) ∧
    verify_run_exit_code (Except.ok vs) =
      (if vs.all verdict_passes then 0 else -1) ∧
    verify_run_exit_code (Except.error e) = -2 ∧
    (-1 : Int) ≠ 0 ∧ (-2 : Int) ≠ 0 ∧ (-2 : Int) ≠ -1 := by
  refine ⟨?_, ?_, rfl, by decide, by decide, by decide⟩ <;>
    by_cases h : vs.all verdict_passes <;>
      simp [verify_run_exit_code, verify_deps, main_exit_code, Except.map, h]

/-- C3: review-proof creation runs the recent-activity check and refuses
exactly when the crate has no recent review activity and neither the
skip flag is passed nor the proof being created is an advisory or an
issue; advisories and issues are always exempt, identically for the
review and unreview commands. -/
theorem review_activity_check_exemptions (a : ReviewArgs) (recent : Bool) :
    (crate_review_activity_check a recent).isOk =
      (recent || a.skip_activity_check || review_is_advisory a || a.issue) ∧
    (crate_unreview_activity_check a recent).isOk =
      (recent || a.skip_activity_check || review_is_advisory a || a.issue) ∧
    crate_review_skip_flag a = crate_unreview_skip_flag a := by
  obtain ⟨adv, aff, iss, sev, skip⟩ := a
  refine ⟨?_, ?_, rfl⟩ <;>
    · simp only [crate_review_activity_check, crate_unreview_activity_check,
        create_review_proof_activity_gate, crate_review_skip_flag,
        crate_unreview_skip_flag, review_is_advisory]
      cases recent <;> cases adv <;> cases iss <;> cases skip <;>
        cases aff <;> cases sev <;> simp [Except.isOk, Except.toBool]

theorem ids_from_string_ok_map (parse : String → Except String Id) :
    ∀ (ss : List String) (l : List Id),
      ids_from_string parse ss = Except.ok l →
      ss.map (fun s => (parse s).toOption) = l.map some := by
  intro ss
  induction ss with
  | nil =>
    intro l h
    simp [ids_from_string] at h
    simp [h]
  | cons s rest ih =>
    intro l h
    cases hp : parse s with
    | error e => simp [ids_from_string, hp] at h
    | ok i =>
      cases hr : ids_from_string parse rest with
      | error e => simp [ids_from_string, hp, hr] at h
      | ok l2 =>
        have hl : i :: l2 = l := by simpa [ids_from_string, hp, hr] using h
        rw [← hl]
        simp only [List.map_cons]
        rw [ih l2 hr, hp]
        rfl

theorem ids_from_string_isOk (parse : String → Except String Id)
    (ss : List String) :
    (ids_from_string parse ss).isOk = ss.all (fun s => (parse s).isOk) := by
  induction ss with
  | nil => rfl
  | cons s rest ih =>
    cases hp : parse s with
    | ok i =>
      cases hr : ids_from_string parse rest with
      | ok l =>
        have hall : rest.all (fun s => (parse s).isOk) = true := by rw [← ih, hr]; rfl
        have h1 : ids_from_string parse (s :: rest) = Except.ok (i :: l) := by
          simp [ids_from_string, hp, hr]
        rw [h1, List.all_cons, hall]
        simp [hp, Except.isOk, Except.toBool]
      | error e =>
        have hall : rest.all (fun s => (parse s).isOk) = false := by rw [← ih, hr]; rfl
        have h1 : ids_from_string parse (s :: rest) = Except.error e := by
          simp [ids_from_string, hp, hr]
        rw [h1, List.all_cons, hall]
        simp [hp, Except.isOk, Except.toBool]
    | error e =>
      have h1 : ids_from_string parse (s :: rest) =
          Except.error ("'" ++ s ++ "' is not a valid crev Id: " ++ e) := by
        simp [ids_from_string, hp]
      rw [h1, List.all_cons]
      simp [hp, Except.isOk, Except.toBool]

theorem ids_from_string_error_names_input (parse : String → Except String Id) :
    ∀ (ss : List String) (msg : String),
      ids_from_string parse ss = Except.error msg →
      ∃ pre s post e, ss = pre ++ s :: post ∧
        (∀ t ∈ pre, (parse t).isOk = true) ∧
        parse s = Except.error e ∧
        msg = "'" ++ s ++ "' is not a valid crev Id: " ++ e := by
  intro ss
  induction ss with
  | nil => intro msg h; simp [ids_from_string] at h
  | cons s rest ih =>
    intro msg h
    cases hp : parse s with
    | error e =>
      refine ⟨[], s, rest, e, rfl, by simp, hp, ?_⟩
      simp [ids_from_string, hp] at h
      exact h.symm
    | ok i =>
      cases hr : ids_from_string parse rest with
      | ok l => simp [ids_from_string, hp, hr] at h
      | error e2 =>
        have h2 : e2 = msg := by simpa [ids_from_string, hp, hr] using h
        obtain ⟨pre, s', post, e', hss, hpre, hps, hmsg⟩ := ih e2 hr
        refine ⟨s :: pre, s', post, e', by rw [hss]; rfl, ?_, hps, by rw [← h2, hmsg]⟩
        intro t ht
        rcases List.mem_cons.mp ht with hts | htp
        · rw [hts, hp]; rfl
        · exact hpre t htp

/-- C9: `ids_from_string` returns the parsed identities exactly when
every input string is a valid crev id (the successful result is the
elementwise parse of the whole list), and otherwise fails with an error
naming the first offending string, so trust-proof creation never sees a
partially parsed id list. -/
theorem ids_from_string_all_or_nothing (parse : String → Except String Id)
    (ss : List String) :
    (∀ l, ids_from_string parse ss = Except.ok l →
      ss.map (fun s => (parse s).toOption) = l.map some) ∧
    (ids_from_string parse ss).isOk = ss.all (fun s => (parse s).isOk) ∧
    (∀ msg, ids_from_string parse ss = Except.error msg →
      ∃ pre s post e, ss = pre ++ s :: post ∧
        (∀ t ∈ pre, (parse t).isOk = true) ∧
        parse s = Except.error e ∧
        msg = "'" ++ s ++ "' is not a valid crev Id: " ++ e) :=
  ⟨fun l h => ids_from_string_ok_map parse ss l h, ids_from_string_isOk parse ss,
    fun msg h => ids_from_string_error_names_input parse ss msg h⟩

/-- A concrete id parser accepting a single known string, used to
witness the behaviour of `ids_from_string` on a failing input. -/
def demo_crevid_from_str (s : String) : Except String Id :=
  if s = "good" then Except.ok ⟨[1]⟩ else Except.error "unrecognized"

theorem ids_from_string_all_or_nothing_witness :
    ids_from_string demo_crevid_from_str ["good", "oops"] =
      Except.error "'oops' is not a valid crev Id: unrecognized" ∧
    ∃ pre s post e, (["good", "oops"] : List String) = pre ++ s :: post ∧
      (∀ t ∈ pre, (demo_crevid_from_str t).isOk = true) ∧
      demo_crevid_from_str s = Except.error e ∧
      "'oops' is not a valid crev Id: unrecognized" =
        "'" ++ s ++ "' is not a valid crev Id: " ++ e :=
  ⟨rfl,
    (ids_from_string_all_or_nothing demo_crevid_from_str ["good", "oops"]).2.2
      "'oops' is not a valid crev Id: unrecognized" rfl⟩

theorem repo_import_filterMap (id : Id) (reset : Bool) (now : Nat) :
    ∀ proofs : List Proof,
      repo_import id reset now proofs =
        (proofs.filterMap (fun q => (parse_dyn_content q).toOption)).map
          (fun c => ((if reset then c.set_date now else c).set_author id).sign_by id) := by
  intro proofs
  induction proofs with
  | nil => rfl
  | cons q rest ih =>
    cases hq : parse_dyn_content q with
    | ok c => simp [repo_import, hq, List.filterMap_cons, Except.toOption, ih]
    | error e => simp [repo_import, hq, List.filterMap_cons, Except.toOption, ih]

/-- C7: repo import is best-effort: the stored proofs are exactly the
input proofs whose content parses, each processed in order, and deleting
a proof whose content fails to parse (for instance one of unknown kind)
from the input leaves the imported result unchanged — a single bad proof
never aborts the import of the others. -/
theorem repo_import_best_effort (id : Id) (reset : Bool) (now : Nat) :
    (∀ proofs, repo_import id reset now proofs =
      (proofs.filterMap (fun q => (parse_dyn_content q).toOption)).map
        (fun c => ((if reset then c.set_date now else c).set_author id).sign_by id)) ∧
    (∀ xs ys bad e, parse_dyn_content bad = Except.error e →
      repo_import id reset now (xs ++ bad :: ys) =
        repo_import id reset now (xs ++ ys)) := by
  refine ⟨repo_import_filterMap id reset now, ?_⟩
  intro xs ys bad e hbad
  rw [repo_import_filterMap, repo_import_filterMap]
  simp [List.filterMap_append, List.filterMap_cons, hbad, Except.toOption]

/-- C4: every proof stored by repo import is freshly signed by the
importing identity over the (possibly date-reset, always
author-rewritten) content of some input proof; its signature is by the
importing identity and covers exactly its own body, so the original
signed document is never re-used. -/
theorem repo_import_fresh_signature (id : Id) (reset : Bool) (now : Nat)
    (proofs : List Proof) :
    ∀ p ∈ repo_import id reset now proofs,
      p.sig_by = id ∧ p.sig_over = p.body ∧ p.body.author = id ∧
      ∃ q ∈ proofs, ∃ c, parse_dyn_content q = Except.ok c ∧
        p = ((if reset then c.set_date now else c).set_author id).sign_by id := by
  intro p hp
  rw [repo_import_filterMap] at hp
  obtain ⟨c, hc, rfl⟩ := List.mem_map.mp hp
  obtain ⟨q, hq, hqc⟩ := List.mem_filterMap.mp hc
  have hqc' : parse_dyn_content q = Except.ok c := by
    cases hpd : parse_dyn_content q with
    | ok a => rw [hpd] at hqc; simp [Except.toOption] at hqc; rw [hqc]
    | error e => rw [hpd] at hqc; simp [Except.toOption] at hqc
  exact ⟨rfl, rfl, rfl, q, hq, c, hqc', rfl⟩

/-- A concrete importing identity for witnessing the import theorems. -/
def demo_id : Id := ⟨[7]⟩

/-- A concrete well-formed input proof (recognized kind). -/
def demo_proof_a : Proof := ⟨⟨⟨[1]⟩, 1, "a"⟩, ⟨[1]⟩, ⟨⟨[1]⟩, 1, "a"⟩, true⟩

/-- A concrete input proof of unrecognized kind. -/
def demo_proof_bad : Proof := ⟨⟨⟨[2]⟩, 2, "b"⟩, ⟨[2]⟩, ⟨⟨[2]⟩, 2, "b"⟩, false⟩

theorem repo_import_best_effort_witness :
    repo_import demo_id true 9 ([demo_proof_a] ++ demo_proof_bad :: [demo_proof_a]) =
      repo_import demo_id true 9 ([demo_proof_a] ++ [demo_proof_a]) :=
  (repo_import_best_effort demo_id true 9).2 [demo_proof_a] [demo_proof_a]
    demo_proof_bad "unknown proof kind" rfl

theorem repo_import_fresh_signature_witness :
    (((demo_proof_a.body.set_date 9).set_author demo_id).sign_by demo_id).sig_by =
        demo_id ∧
    (((demo_proof_a.body.set_date 9).set_author demo_id).sign_by demo_id).sig_over =
      (((demo_proof_a.body.set_date 9).set_author demo_id).sign_by demo_id).body ∧
    (((demo_proof_a.body.set_date 9).set_author demo_id).sign_by demo_id).body.author =
      demo_id ∧
    ∃ q ∈ [demo_proof_a], ∃ c, parse_dyn_content q = Except.ok c ∧
      ((demo_proof_a.body.set_date 9).set_author demo_id).sign_by demo_id =
        ((if true then c.set_date 9 else c).set_author demo_id).sign_by demo_id :=
  repo_import_fresh_signature demo_id true 9 [demo_proof_a]
    (((demo_proof_a.body.set_date 9).set_author demo_id).sign_by demo_id)
    (by decide)

/-- C5: an id printed by the trusted-ids query is exactly an element of
`trusted_ids()` whose effective trust level is at least the caller's
threshold; the filtering is the caller's filter over `trusted_ids()`,
outside the trust-set engine. -/
theorem trusted_query_filters_by_threshold (ts : TrustSet) (lvl : TrustLevel)
    (i : Id) :
    (i ∈ id_query_trusted ts lvl ↔
      i ∈ ts.trusted_ids ∧ lvl ≤ ts.get_effective_trust_level i) ∧
    id_query_trusted ts lvl =
      ts.trusted_ids.filter
        (fun j => decide (lvl ≤ ts.get_effective_trust_level j)) := by
  refine ⟨?_, rfl⟩
  simp [id_query_trusted, List.mem_filter]

theorem trust_urls_to_ids_mem (f : Id → Option String) (a : List Id) (i : Id) :
    ∀ (urls used : List String),
      i ∈ (trust_urls_to_ids f a urls used).1 ↔
        i ∈ a ∧ ∃ url ∈ urls, url ∉ used ∧ f i = some url := by
  intro urls
  induction urls with
  | nil => intro used; simp [trust_urls_to_ids]
  | cons url rest ih =>
    intro used
    by_cases hc : url ∉ used ∧ a.filter (fun j => decide (f j = some url)) ≠ []
    · have he : trust_urls_to_ids f a (url :: rest) used =
          (a.filter (fun j => decide (f j = some url)) ++
            (trust_urls_to_ids f a rest (url :: used)).1,
           (trust_urls_to_ids f a rest (url :: used)).2) := by
        rw [trust_urls_to_ids, if_pos hc]
      rw [he]
      simp only [List.mem_append, List.mem_filter, ih (url :: used)]
      constructor
      · rintro (⟨hia, hfi⟩ | ⟨hia, u2, hu2, hnots, hf⟩)
        · exact ⟨hia, url, List.mem_cons_self url rest, hc.1, of_decide_eq_true hfi⟩
        · exact ⟨hia, u2, List.mem_cons_of_mem _ hu2,
            fun h => hnots (List.mem_cons_of_mem _ h), hf⟩
      · rintro ⟨hia, u2, hu2, hnotu, hf⟩
        by_cases hequ : u2 = url
        · exact Or.inl ⟨hia, decide_eq_true (hequ ▸ hf)⟩
        · rcases List.mem_cons.mp hu2 with h1 | h2
          · exact absurd h1 hequ
          · refine Or.inr ⟨hia, u2, h2, fun hm => ?_, hf⟩
            rcases List.mem_cons.mp hm with h3 | h4
            · exact hequ h3
            · exact hnotu h4
    · have he : trust_urls_to_ids f a (url :: rest) used =
          ((trust_urls_to_ids f a rest used).1,
           url :: (trust_urls_to_ids f a rest used).2) := by
        rw [trust_urls_to_ids, if_neg hc]
      rw [he]
      simp only [ih used]
      constructor
      · rintro ⟨hia, u2, hu2, hnotu, hf⟩
        exact ⟨hia, u2, List.mem_cons_of_mem _ hu2, hnotu, hf⟩
      · rintro ⟨hia, u2, hu2, hnotu, hf⟩
        rcases List.mem_cons.mp hu2 with rfl | h2
        · exfalso
          rcases not_and_or.mp hc with h3 | h4
          · exact hnotu (not_not.mp h3)
          · have : i ∈ a.filter (fun j => decide (f j = some u2)) :=
              List.mem_filter.mpr ⟨hia, decide_eq_true hf⟩
            rw [not_not.mp h4] at this
            exact absurd this (List.not_mem_nil i)
        · exact ⟨hia, u2, h2, hnotu, hf⟩

theorem trust_urls_to_ids_warns (f : Id → Option String) (a : List Id)
    (w : String) :
    ∀ (urls used : List String),
      (w ∈ (trust_urls_to_ids f a urls used).2 → w ∈ urls) ∧
      (w ∈ urls → (∀ j ∈ a, f j ≠ some w) →
        w ∈ (trust_urls_to_ids f a urls used).2) := by
  intro urls
  induction urls with
  | nil => intro used; simp [trust_urls_to_ids]
  | cons url rest ih =>
    intro used
    by_cases hc : url ∉ used ∧ a.filter (fun j => decide (f j = some url)) ≠ []
    · have he : trust_urls_to_ids f a (url :: rest) used =
          (a.filter (fun j => decide (f j = some url)) ++
            (trust_urls_to_ids f a rest (url :: used)).1,
           (trust_urls_to_ids f a rest (url :: used)).2) := by
        rw [trust_urls_to_ids, if_pos hc]
      rw [he]
      constructor
      · intro hw
        exact List.mem_cons_of_mem _ ((ih (url :: used)).1 hw)
      · intro hw hnm
        have hwne : w ≠ url := by
          rintro rfl
          refine hc.2 (List.filter_eq_nil_iff.mpr ?_)
          intro j hj
          simp [hnm j hj]
        rcases List.mem_cons.mp hw with h1 | h2
        · exact absurd h1 hwne
        · exact (ih (url :: used)).2 h2 hnm
    · have he : trust_urls_to_ids f a (url :: rest) used =
          ((trust_urls_to_ids f a rest used).1,
           url :: (trust_urls_to_ids f a rest used).2) := by
        rw [trust_urls_to_ids, if_neg hc]
      rw [he]
      constructor
      · intro hw
        rcases List.mem_cons.mp hw with rfl | h2
        · exact List.mem_cons_self w rest
        · exact List.mem_cons_of_mem _ ((ih used).1 h2)
      · intro hw hnm
        by_cases hwe : w = url
        · exact hwe ▸ List.mem_cons_self w _
        · rcases List.mem_cons.mp hw with h1 | h2
          · exact absurd h1 hwe
          · exact List.mem_cons_of_mem _ ((ih used).2 h2 hnm)

theorem ids_from_string_mem (parse : String → Except String Id)
    (ss : List String) (l : List Id)
    (h : ids_from_string parse ss = Except.ok l) (i : Id) :
    i ∈ l ↔ ∃ s ∈ ss, parse s = Except.ok i := by
  have hm := ids_from_string_ok_map parse ss l h
  constructor
  · intro hi
    have h1 : some i ∈ l.map some := List.mem_map_of_mem some hi
    rw [← hm] at h1
    obtain ⟨s, hs, hps⟩ := List.mem_map.mp h1
    refine ⟨s, hs, ?_⟩
    cases hq : parse s with
    | ok j => rw [hq] at hps; simp [Except.toOption] at hps; rw [hps]
    | error e => rw [hq] at hps; simp [Except.toOption] at hps
  · rintro ⟨s, hs, hps⟩
    have h1 : (parse s).toOption = some i := by rw [hps]; rfl
    have h2 : some i ∈ ss.map (fun s => (parse s).toOption) :=
      List.mem_map.mpr ⟨s, hs, h1⟩
    rw [hm] at h2
    obtain ⟨j, hj, hji⟩ := List.mem_map.mp h2
    rwa [← Option.some_inj.mp hji]

/-- C10: the trust command splits its arguments at the `https://`
prefix; it succeeds exactly when the non-URL id strings all parse, the
created proof targets the union of the explicitly given ids and every
author identity whose self-claimed URL is among the URL arguments, and a
URL resolving to no identity lands only in the warnings. -/
theorem trust_command_urls_and_ids (parse : String → Except String Id)
    (f : Id → Option String) (a : List Id) (args : List String) :
    (trust_args_partition args =
      (args.filter (fun s => rs_starts_with s "https://"),
       args.filter (fun s => !rs_starts_with s "https://"))) ∧
    (trust_command_targets parse f a args).isOk =
      (ids_from_string parse (trust_args_partition args).2).isOk ∧
    (∀ ids warns,
      trust_command_targets parse f a args = Except.ok (ids, warns) →
      (∀ i, i ∈ ids ↔
        ((∃ s ∈ (trust_args_partition args).2, parse s = Except.ok i) ∨
          (i ∈ a ∧ ∃ url ∈ (trust_args_partition args).1, f i = some url))) ∧
      (∀ url ∈ warns, url ∈ (trust_args_partition args).1) ∧
      (∀ url ∈ (trust_args_partition args).1,
        (∀ j ∈ a, f j ≠ some url) → url ∈ warns)) := by
  refine ⟨?_, ?_, ?_⟩
  · rw [trust_args_partition, List.partition_eq_filter_filter]
    rfl
  · unfold trust_command_targets
    cases hi : ids_from_string parse (trust_args_partition args).2 with
    | ok l => rfl
    | error e => rfl
  · intro ids warns h
    unfold trust_command_targets at h
    cases hi : ids_from_string parse (trust_args_partition args).2 with
    | error e => rw [hi] at h; cases h
    | ok l =>
      rw [hi] at h

      have hids : ids = l ++ (trust_urls_to_ids f a (trust_args_partition args).1 []).1 ∧
          warns = (trust_urls_to_ids f a (trust_args_partition args).1 []).2 := by
        have := h
        simp only [Except.ok.injEq, Prod.mk.injEq] at this
        exact ⟨this.1.symm, this.2.symm⟩
      obtain ⟨hids1, hids2⟩ := hids
      refine ⟨?_, ?_, ?_⟩
      · intro i
        rw [hids1, List.mem_append, ids_from_string_mem parse _ l hi i,
          trust_urls_to_ids_mem f a i (trust_args_partition args).1 []]
        simp
      · intro url hu
        rw [hids2] at hu
        exact (trust_urls_to_ids_warns f a url (trust_args_partition args).1 []).1 hu
      · intro url hu hnm
        rw [hids2]
        exact (trust_urls_to_ids_warns f a url (trust_args_partition args).1 []).2 hu hnm

/-- A concrete self-claimed-URL lookup used to witness the trust-command
theorem. -/
def demo_from_self (i : Id) : Option String :=
  if i = ⟨[3]⟩ then some "https://a.example/proofs" else none

/-- Concrete author ids used to witness the trust-command theorem. -/
def demo_author_ids : List Id := [⟨[3]⟩]

/-- Concrete trust-command arguments used to witness the trust-command
theorem: one resolvable URL, one plain id string, one URL resolving to
no identity. -/
def demo_trust_args : List String :=
  ["https://a.example/proofs", "good", "https://nobody.example/x"]

theorem trust_command_urls_and_ids_witness :
    (∀ i, i ∈ [Id.mk [1], Id.mk [3]] ↔
      ((∃ s ∈ (trust_args_partition demo_trust_args).2,
          demo_crevid_from_str s = Except.ok i) ∨
        (i ∈ demo_author_ids ∧
          ∃ url ∈ (trust_args_partition demo_trust_args).1,
            demo_from_self i = some url))) ∧
    (∀ url ∈ ["https://nobody.example/x"],
      url ∈ (trust_args_partition demo_trust_args).1) ∧
    (∀ url ∈ (trust_args_partition demo_trust_args).1,
      (∀ j ∈ demo_author_ids, demo_from_self j ≠ some url) →
        url ∈ ["https://nobody.example/x"]) :=
  (trust_command_urls_and_ids demo_crevid_from_str demo_from_self
      demo_author_ids demo_trust_args).2.2
    [Id.mk [1], Id.mk [3]] ["https://nobody.example/x"] rfl

end Crev
